import Mathlib

/-
Shallow embedding of the population-forecast application
(src/App.tsx, src/types.ts, src/components/CountrySelector,
src/components/PopulationChart).

The app loads a Gapminder-style CSV, filters out incomplete records,
indexes rows by country, and on demand asks a generative oracle for a
population forecast which is merged into the working data set.  Numeric
CSV fields are modelled as integers (the claims under study only depend
on ordering and equality of those values, never on fractional parts).
JavaScript's stable Array.prototype.sort is modelled by a stable
insertion sort; the default string comparator is modelled by
code-point-lexicographic comparison of the character lists.
-/

/-- One typed observation row (src/types.ts, interface GapminderData).
The optional TypeScript field predicted is modelled with default false,
matching JavaScript truthiness of an absent field. -/
structure GapminderData where
  country : String
  continent : String
  year : Int
  lifeExp : Int
  pop : Int
  gdpPercap : Int
  iso_alpha : String
  iso_num : Int
  predicted : Bool
deriving DecidableEq, Repr

/-- One raw parsed CSV record before validation: every field may be
absent (Papa.parse with dynamicTyping leaves missing cells undefined). -/
structure RawRecord where
  country : Option String
  continent : Option String
  year : Option Int
  lifeExp : Option Int
  pop : Option Int
  gdpPercap : Option Int
  iso_alpha : Option String
  iso_num : Option Int
deriving DecidableEq, Repr

/-- JavaScript truthiness of a possibly-absent string: absent and the
empty string are falsy. -/
def truthyStr : Option String → Bool
  | none => false
  | some s => !(s == "")

/-- JavaScript truthiness of a possibly-absent number: absent and 0 are
falsy. -/
def truthyNum : Option Int → Bool
  | none => false
  | some n => !(n == 0)

/-- The validity predicate of src/App.tsx line 41:
row.country && row.year && row.pop, i.e. all three truthy. -/
def isValidRecord (r : RawRecord) : Bool :=
  truthyStr r.country && truthyNum r.year && truthyNum r.pop

/-- A record that passed the filter, viewed as a typed row: present
fields are kept as they are, absent non-essential fields default the way
downstream JavaScript code treats undefined. -/
def toRow (r : RawRecord) : GapminderData :=
  { country := r.country.getD ""
    continent := r.continent.getD ""
    year := r.year.getD 0
    lifeExp := r.lifeExp.getD 0
    pop := r.pop.getD 0
    gdpPercap := r.gdpPercap.getD 0
    iso_alpha := r.iso_alpha.getD ""
    iso_num := r.iso_num.getD 0
    predicted := false }

/-- The Row Normalizer of src/App.tsx line 41:
validData = results.data.filter(row => row.country && row.year && row.pop). -/
def normalizeRows (rs : List RawRecord) : List GapminderData :=
  (rs.filter isValidRecord).map toRow

/-- Code-point lexicographic comparison of character lists, the order
JavaScript's default Array.prototype.sort comparator induces on the
country strings of this data set. -/
def charListLt : List Char → List Char → Bool
  | [], [] => false
  | [], _ :: _ => true
  | _ :: _, [] => false
  | a :: as, b :: bs => if a < b then true else if b < a then false else charListLt as bs

/-- Strict lexicographic order on strings via their character lists. -/
def strLt (a b : String) : Bool := charListLt a.toList b.toList

/-- Stable ordered insertion: the new element goes after every already
present element that is strictly smaller, hence before equal elements
inserted earlier into the fold below, which preserves input order on
ties. -/
def insertOrd (lt : α → α → Bool) (r : α) : List α → List α
  | [] => [r]
  | x :: xs => if lt x r then x :: insertOrd lt r xs else r :: x :: xs

/-- Stable sort by the strict comparator lt, modelling JavaScript's
stable Array.prototype.sort. -/
def sortOrd (lt : α → α → Bool) (l : List α) : List α :=
  l.foldr (insertOrd lt) []

/-- One step of first-occurrence deduplication of the country column. -/
def insertCountry (acc : List String) (r : GapminderData) : List String :=
  if r.country ∈ acc then acc else acc ++ [r.country]

/-- First-occurrence deduplication of the country column, modelling
new Set(validData.map(item => item.country)) of src/App.tsx line 44
(JavaScript Set iteration follows insertion order). -/
def countryFold (rows : List GapminderData) : List String :=
  rows.foldl insertCountry []

/-- The Series Index country list of src/App.tsx line 44:
[...new Set(validData.map(item => item.country))].sort(). -/
def uniqueCountries (rows : List GapminderData) : List String :=
  sortOrd strLt (countryFold rows)

/-- The year comparator of src/App.tsx line 150: (a, b) => a.year - b.year. -/
def yearLt (a b : GapminderData) : Bool := decide (a.year < b.year)

/-- The per-country working series of src/App.tsx lines 147-151:
data.filter(item => item.country === selectedCountry).sort((a, b) => a.year - b.year). -/
def filteredData (data : List GapminderData) (c : String) : List GapminderData :=
  sortOrd yearLt (data.filter (fun r => r.country == c))

/-- The boundary computation of src/App.tsx lines 153-156: the maximum
year of the non-predicted rows, undefined on an empty historical set. -/
def lastHistoricalYear (fd : List GapminderData) : Option Int :=
  match (fd.filter (fun d => !d.predicted)).map (fun d => d.year) with
  | [] => none
  | y :: ys => some (ys.foldl max y)

/-- Whether the prediction reference area is rendered
(src/components/PopulationChart): lastHistoricalYear is truthy and some
row is predicted. -/
def boundaryMarkShown (fd : List GapminderData) : Bool :=
  (match lastHistoricalYear fd with
   | none => false
   | some y => !(y == 0)) && fd.any (fun d => d.predicted)

/-- The per-country historical rows of src/App.tsx line 76:
originalData.filter(d => d.country === selectedCountry). -/
def countryRows (od : List GapminderData) (sel : String) : List GapminderData :=
  od.filter (fun d => d.country == sel)

/-- JavaScript slice(-n): the last min(n, length) elements of a list. -/
def takeLast (n : Nat) (l : List α) : List α := l.drop (l.length - n)

/-- A single (year, pop) pair as exchanged with the forecast oracle. -/
structure YearPop where
  year : Int
  pop : Int
deriving DecidableEq, Repr

/-- The information src/App.tsx lines 84-88 embed into the oracle
prompt: the target country, the recent context rows reduced to
(year, pop), and the requested forecast range. -/
structure ForecastRequest where
  country : String
  recentContext : List YearPop
  rangeStart : Int
  rangeEnd : Int
deriving DecidableEq, Repr

/-- The fixed forecast horizon hard-coded in the prompt of src/App.tsx
line 88. -/
def horizonYear : Int := 2025

/-- The forecast request construction of src/App.tsx lines 76-88: none
when the country has no historical rows (the error branch, lines 77-81),
otherwise the last 10 rows of countryData in data-set order reduced to
(year, pop) pairs, with the range running from the maximum historical
year plus one to the fixed horizon. -/
def requestForecastInput (od : List GapminderData) (sel : String) : Option ForecastRequest :=
  match countryRows od sel with
  | [] => none
  | r :: rest =>
    some { country := sel
           recentContext := (takeLast 10 (r :: rest)).map (fun d => YearPop.mk d.year d.pop)
           rangeStart := ((rest.map (fun d => d.year)).foldl max r.year) + 1
           rangeEnd := horizonYear }

/-- Modelled from the spec: the context the specification describes, the
last 10 rows of the chronologically-ordered historical series reduced to
(year, pop) pairs.  Stated only to compare with requestForecastInput,
which the source builds without sorting. -/
def specChronologicalContext (od : List GapminderData) (sel : String) : List YearPop :=
  (takeLast 10 (sortOrd yearLt (countryRows od sel))).map (fun d => YearPop.mk d.year d.pop)

/-- The metadata copied from the first historical row into every
predicted row (src/App.tsx lines 116-122). -/
structure CountryMeta where
  continent : String
  iso_alpha : String
  iso_num : Int
deriving DecidableEq, Repr

/-- countryData[0] with the JavaScript || defaults of src/App.tsx
lines 116-122. -/
def metaOf (cd : List GapminderData) : CountryMeta :=
  match cd with
  | [] => { continent := "", iso_alpha := "", iso_num := 0 }
  | r :: _ => { continent := r.continent, iso_alpha := r.iso_alpha, iso_num := r.iso_num }

/-- One predicted row as built in src/App.tsx lines 114-124. -/
def mkPredictedRow (sel : String) (m : CountryMeta) (p : YearPop) : GapminderData :=
  { country := sel
    continent := m.continent
    year := p.year
    lifeExp := 0
    pop := p.pop
    gdpPercap := 0
    iso_alpha := m.iso_alpha
    iso_num := m.iso_num
    predicted := true }

/-- The full predicted batch built from the oracle payload
(src/App.tsx lines 114-124). -/
def mkBatch (sel : String) (m : CountryMeta) (vals : List YearPop) : List GapminderData :=
  vals.map (mkPredictedRow sel m)

/-- The Forecast Merger of src/App.tsx line 126:
setData(prevData => [...prevData.filter(d => !d.predicted), ...newPredictedData]). -/
def mergePredicted (data batch : List GapminderData) : List GapminderData :=
  data.filter (fun d => !d.predicted) ++ batch

/-- The outcome of an oracle call: a decoded (year, pop) array, or any
failure (network error, non-array payload, JSON parse error), all of
which land in the same catch block of src/App.tsx lines 128-132. -/
inductive OracleResult where
  | success (vals : List YearPop)
  | failure
deriving DecidableEq, Repr

/-- The controller state of src/App.tsx (the useState hooks relevant to
the claims).  pending records the country captured by the closure of an
in-flight oracle call, none when no call is in flight.  The single
pending slot is a simplification: the effect of src/App.tsx lines
138-144 re-invokes handlePredictionToggle without checking predicting,
so the real program can have two oracle calls in flight at once; states
whose pending country differs from the selection, such as sStale below,
are reachable in the real program through that overlap. -/
structure AppState where
  originalData : List GapminderData
  data : List GapminderData
  selectedCountry : String
  showPrediction : Bool
  predicting : Bool
  error : Option String
  pending : Option String
deriving DecidableEq, Repr

/-- Events the loaded application reacts to: a country selection, a
checkbox toggle, and the completion of an in-flight oracle call. -/
inductive Event where
  | selectCountry (c : String)
  | toggle (checked : Bool)
  | complete (res : OracleResult)
deriving DecidableEq, Repr

/-- The prediction start path of handlePredictionToggle with
checked = true (src/App.tsx lines 66-88): sets showPrediction, clears
the error, and either reports the empty-series error (lines 77-81,
leaving showPrediction untouched and issuing no request) or issues the
oracle request, capturing the current selection. -/
def startPrediction (s : AppState) : AppState :=
  match countryRows s.originalData s.selectedCountry with
  | [] =>
    { s with showPrediction := true
             predicting := false
             pending := none
             error := some "No data available for this country to make a prediction." }
  | _ :: _ =>
    { s with showPrediction := true
             predicting := true
             pending := some s.selectedCountry
             error := none }

/-- The completion of an in-flight oracle call for captured country pc
(src/App.tsx lines 109-135): on success the predicted batch for pc is
merged into the current data (line 126); on any failure the error is
surfaced and the checkbox is unchecked (lines 128-132); either way
predicting is cleared (finally, line 134).  No comparison with the
current selection takes place. -/
def completeRequest (s : AppState) (pc : String) (res : OracleResult) : AppState :=
  match res with
  | OracleResult.failure =>
    { s with error := some "Failed to generate prediction."
             showPrediction := false
             predicting := false
             pending := none }
  | OracleResult.success vals =>
    { s with data := mergePredicted s.data (mkBatch pc (metaOf (countryRows s.originalData pc)) vals)
             predicting := false
             pending := none }

/-- One controller step.  The selector and the checkbox carry
disabled while loading or predicting (src/App.tsx lines 191 and 200),
modelled by gating those events on predicting = false; a selection
change while the toggle is on restarts the prediction for the new
country (the effect of src/App.tsx lines 138-144); a completion event
is only enabled while a call is in flight.  Because that same effect
also re-invokes the handler without checking predicting, the real
program can run two overlapping calls whose first completion clears
predicting (line 134) and re-enables the controls while the second is
still in flight; this single-pending step relation does not capture
that overlap and is relied on only by claims that do not depend on it
(the toggle branches themselves are line-faithful to lines 66-88). -/
def step (s : AppState) : Event → Option AppState
  | Event.toggle checked =>
    if s.predicting then none
    else if checked then some (startPrediction s)
    else some { s with showPrediction := false, data := s.originalData }
  | Event.selectCountry c =>
    if s.predicting then none
    else
      let s2 := { s with selectedCountry := c }
      some (if s2.showPrediction then startPrediction s2 else s2)
  | Event.complete res =>
    match s.pending with
    | none => none
    | some pc => some (completeRequest s pc res)

/-- The state right after a successful dataset load: data and
originalData hold the normalized rows, the selection is the hard-coded
initial "Canada" (src/App.tsx line 15), the toggle is off and nothing is
in flight. -/
def initState (od : List GapminderData) : AppState :=
  { originalData := od
    data := od
    selectedCountry := "Canada"
    showPrediction := false
    predicting := false
    error := none
    pending := none }

/-- The series the chart receives for the current selection
(src/App.tsx lines 147-151 and 216). -/
def workingSeries (s : AppState) : List GapminderData :=
  filteredData s.data s.selectedCountry

/-! Helper lemmas about the stable insertion sort. -/

theorem insertOrd_perm (lt : α → α → Bool) (r : α) (l : List α) :
    (insertOrd lt r l).Perm (r :: l) := by
  induction l with
  | nil => exact List.Perm.refl _
  | cons x xs ih =>
    simp only [insertOrd]
    split
    · exact (List.Perm.cons x ih).trans (List.Perm.swap r x xs)
    · exact List.Perm.refl _

theorem sortOrd_perm (lt : α → α → Bool) (l : List α) : (sortOrd lt l).Perm l := by
  induction l with
  | nil => exact List.Perm.refl _
  | cons x xs ih =>
    exact (insertOrd_perm lt x (sortOrd lt xs)).trans (List.Perm.cons x ih)

theorem insertOrd_mem {lt : α → α → Bool} {r z : α} {l : List α}
    (h : z ∈ insertOrd lt r l) : z = r ∨ z ∈ l := by
  have h2 := (insertOrd_perm lt r l).mem_iff.mp h
  simpa using h2

theorem insertOrd_pairwise (lt : α → α → Bool)
    (hasym : ∀ a b, lt a b = true → lt b a = false)
    (htr : ∀ a b c, lt b a = false → lt c b = false → lt c a = false)
    (r : α) (l : List α) (hl : l.Pairwise (fun a b => lt b a = false)) :
    (insertOrd lt r l).Pairwise (fun a b => lt b a = false) := by
  induction l with
  | nil => simp [insertOrd]
  | cons x xs ih =>
    rcases List.pairwise_cons.mp hl with ⟨hx, hxs⟩
    simp only [insertOrd]
    by_cases h : lt x r = true
    · rw [if_pos h]
      refine List.pairwise_cons.mpr ⟨?_, ih hxs⟩
      intro z hz
      rcases insertOrd_mem hz with rfl | hzx
      · exact hasym x z h
      · exact hx z hzx
    · rw [if_neg h]
      have hxr : lt x r = false := by
        cases hv : lt x r
        · rfl
        · exact absurd hv h
      refine List.pairwise_cons.mpr ⟨?_, hl⟩
      intro z hz
      rcases List.mem_cons.mp hz with rfl | hzxs
      · exact hxr
      · exact htr r x z hxr (hx z hzxs)

theorem sortOrd_pairwise (lt : α → α → Bool)
    (hasym : ∀ a b, lt a b = true → lt b a = false)
    (htr : ∀ a b c, lt b a = false → lt c b = false → lt c a = false)
    (l : List α) :
    (sortOrd lt l).Pairwise (fun a b => lt b a = false) := by
  induction l with
  | nil => simp [sortOrd]
  | cons x xs ih => exact insertOrd_pairwise lt hasym htr x _ ih

theorem insertOrd_filter_pos (lt : α → α → Bool) (p : α → Bool) (r : α) (l : List α)
    (hpr : p r = true) (hlt : ∀ x, p x = true → lt x r = false) :
    (insertOrd lt r l).filter p = r :: l.filter p := by
  induction l with
  | nil => simp [insertOrd, hpr]
  | cons x xs ih =>
    simp only [insertOrd]
    by_cases h : lt x r = true
    · rw [if_pos h]
      have hpx : p x = false := by
        cases hv : p x
        · rfl
        · have h2 := hlt x hv
          rw [h] at h2
          exact Bool.noConfusion h2
      simp [List.filter_cons, hpx, ih]
    · rw [if_neg h]
      simp [List.filter_cons, hpr]

theorem insertOrd_filter_neg (lt : α → α → Bool) (p : α → Bool) (r : α) (l : List α)
    (hpr : p r = false) :
    (insertOrd lt r l).filter p = l.filter p := by
  induction l with
  | nil => simp [insertOrd, hpr]
  | cons x xs ih =>
    simp only [insertOrd]
    by_cases h : lt x r = true
    · rw [if_pos h]
      cases hv : p x <;> simp [List.filter_cons, hv, ih]
    · rw [if_neg h]
      simp [List.filter_cons, hpr]

/-! The lexicographic comparator agrees with the order on String. -/

theorem charListLt_iff_lex (as : List Char) : ∀ bs : List Char,
    charListLt as bs = true ↔ List.Lex (· < ·) as bs := by
  induction as with
  | nil =>
    intro bs
    cases bs with
    | nil => simp [charListLt]
    | cons b bs =>
      simp only [charListLt]
      exact ⟨fun _ => List.Lex.nil, fun _ => trivial⟩
  | cons a as ih =>
    intro bs
    cases bs with
    | nil => simp [charListLt]
    | cons b bs =>
      rcases lt_trichotomy a b with h | h | h
      · simp only [charListLt, if_pos h]
        exact ⟨fun _ => List.Lex.rel h, fun _ => trivial⟩
      · subst h
        simp only [charListLt, if_neg (lt_irrefl a)]
        rw [List.Lex.cons_iff]
        exact ih bs
      · simp only [charListLt, if_neg (asymm h : ¬ a < b), if_pos h]
        constructor
        · intro hf
          exact Bool.noConfusion hf
        · intro hlex
          exfalso
          cases hlex with
          | rel h2 => exact (asymm h : ¬ a < b) h2
          | cons h2 => exact lt_irrefl a h

theorem strLt_iff (a b : String) : strLt a b = true ↔ a < b := by
  rw [strLt, charListLt_iff_lex]
  exact (String.lt_iff_toList_lt).symm

theorem strLt_eq_false_iff (a b : String) : strLt a b = false ↔ ¬ a < b := by
  rw [← strLt_iff]
  cases strLt a b <;> simp

theorem strLt_asymm (a b : String) (h : strLt a b = true) : strLt b a = false := by
  rw [strLt_eq_false_iff]
  exact asymm ((strLt_iff a b).mp h)

theorem strLt_neg_trans (a b c : String) (h1 : strLt b a = false) (h2 : strLt c b = false) :
    strLt c a = false := by
  rw [strLt_eq_false_iff] at h1 h2 ⊢
  intro h
  exact absurd (lt_of_lt_of_le h (le_trans (not_lt.mp h1) (not_lt.mp h2))) (lt_irrefl c)

theorem yearLt_asymm (a b : GapminderData) (h : yearLt a b = true) : yearLt b a = false := by
  simp only [yearLt, decide_eq_true_eq] at h
  simp only [yearLt, decide_eq_false_iff_not]
  omega

theorem yearLt_neg_trans (a b c : GapminderData)
    (h1 : yearLt b a = false) (h2 : yearLt c b = false) : yearLt c a = false := by
  simp only [yearLt, decide_eq_false_iff_not] at h1 h2 ⊢
  omega

/-! Facts about the running maximum used for the boundary year. -/

theorem self_le_foldl_max (ys : List Int) (y : Int) : y ≤ ys.foldl max y := by
  induction ys generalizing y with
  | nil => exact le_refl y
  | cons z zs ih => exact le_trans (le_max_left y z) (ih (max y z))

theorem mem_le_foldl_max (ys : List Int) (y : Int) : ∀ z ∈ ys, z ≤ ys.foldl max y := by
  induction ys generalizing y with
  | nil =>
    intro z hz
    cases hz
  | cons w ws ih =>
    intro z hz
    rcases List.mem_cons.mp hz with rfl | hzw
    · exact le_trans (le_max_right y z) (self_le_foldl_max ws (max y z))
    · exact ih (max y w) z hzw

theorem foldl_max_mem (ys : List Int) (y : Int) :
    ys.foldl max y = y ∨ ys.foldl max y ∈ ys := by
  induction ys generalizing y with
  | nil => exact Or.inl rfl
  | cons w ws ih =>
    rw [List.foldl_cons]
    rcases ih (max y w) with h | h
    · rcases max_choice y w with hm | hm
      · left
        rw [h, hm]
      · right
        rw [h, hm]
        exact List.mem_cons_self w ws
    · right
      exact List.mem_cons_of_mem w h

/-! Facts about the first-occurrence country set. -/

theorem mem_foldl_insertCountry (rows : List GapminderData) : ∀ (acc : List String) (c : String),
    c ∈ rows.foldl insertCountry acc ↔ c ∈ acc ∨ ∃ r ∈ rows, r.country = c := by
  induction rows with
  | nil => simp
  | cons r rows ih =>
    intro acc c
    rw [List.foldl_cons, ih]
    unfold insertCountry
    by_cases h : r.country ∈ acc
    · rw [if_pos h]
      constructor
      · rintro (hc | ⟨r2, hr2, hrc⟩)
        · exact Or.inl hc
        · exact Or.inr ⟨r2, List.mem_cons_of_mem r hr2, hrc⟩
      · rintro (hc | ⟨r2, hr2, hrc⟩)
        · exact Or.inl hc
        · rcases List.mem_cons.mp hr2 with rfl | hr3
          · subst hrc
            exact Or.inl h
          · exact Or.inr ⟨r2, hr3, hrc⟩
    · rw [if_neg h]
      constructor
      · rintro (hc | ⟨r2, hr2, hrc⟩)
        · rcases List.mem_append.mp hc with hc2 | hc2
          · exact Or.inl hc2
          · refine Or.inr ⟨r, List.mem_cons_self r rows, ?_⟩
            rcases List.mem_singleton.mp hc2 with rfl
            rfl
        · exact Or.inr ⟨r2, List.mem_cons_of_mem r hr2, hrc⟩
      · rintro (hc | ⟨r2, hr2, hrc⟩)
        · exact Or.inl (List.mem_append.mpr (Or.inl hc))
        · rcases List.mem_cons.mp hr2 with rfl | hr3
          · subst hrc
            exact Or.inl (List.mem_append.mpr (Or.inr (List.mem_singleton.mpr rfl)))
          · exact Or.inr ⟨r2, hr3, hrc⟩

theorem nodup_foldl_insertCountry (rows : List GapminderData) : ∀ acc : List String,
    acc.Nodup → (rows.foldl insertCountry acc).Nodup := by
  induction rows with
  | nil => exact fun acc h => h
  | cons r rows ih =>
    intro acc h
    rw [List.foldl_cons]
    apply ih
    unfold insertCountry
    by_cases hm : r.country ∈ acc
    · rw [if_pos hm]
      exact h
    · rw [if_neg hm]
      rw [List.nodup_append]
      refine ⟨h, List.nodup_singleton _, ?_⟩
      intro a ha hb
      rcases List.mem_singleton.mp hb with rfl
      exact hm ha

/-! Sorting a row list by year never disturbs the relative order of
rows sharing a year (stability of the embedded sort). -/

theorem sortOrd_year_filter (l : List GapminderData) (y : Int) :
    (sortOrd yearLt l).filter (fun d => d.year == y) = l.filter (fun d => d.year == y) := by
  induction l with
  | nil => rfl
  | cons a l ih =>
    show (insertOrd yearLt a (sortOrd yearLt l)).filter _ = _
    by_cases h : a.year = y
    · rw [insertOrd_filter_pos yearLt _ a _ (by simp [h]) ?_, ih]
      · simp [List.filter_cons, h]
      · intro x hx
        have hxy : x.year = y := by simpa using hx
        simp [yearLt, hxy, h]
    · rw [insertOrd_filter_neg yearLt _ a _ (by simp [h]), ih]
      simp [List.filter_cons, h]

/-! Concrete rows used by witnesses. -/

/-- A Canada historical row as in the end-to-end scenarios. -/
def rowCanada : GapminderData :=
  { country := "Canada", continent := "Americas", year := 2007, lifeExp := 80
    pop := 33390141, gdpPercap := 36319, iso_alpha := "CAN", iso_num := 124
    predicted := false }

/-- The metadata the merger copies from rowCanada. -/
def metaCanada : CountryMeta := { continent := "Americas", iso_alpha := "CAN", iso_num := 124 }

/-- A predicted Canada row as produced from an oracle (year, pop) pair. -/
def predCanada : GapminderData := mkPredictedRow "Canada" metaCanada (YearPop.mk 2008 34000000)

/-- A complete raw record with every field present and valid. -/
def recGood : RawRecord :=
  { country := some "Canada", continent := some "Americas", year := some 1952
    lifeExp := some 68, pop := some 14785584, gdpPercap := some 11367
    iso_alpha := some "CAN", iso_num := some 124 }

/-- A raw record whose population cell is absent. -/
def recMissingPop : RawRecord :=
  { country := some "France", continent := some "Europe", year := some 1952
    lifeExp := some 67, pop := none, gdpPercap := some 7000
    iso_alpha := some "FRA", iso_num := some 250 }

/-- A raw record with every field present but a zero population value. -/
def recZeroPop : RawRecord :=
  { country := some "Vatican", continent := some "Europe", year := some 1952
    lifeExp := some 70, pop := some 0, gdpPercap := some 9000
    iso_alpha := some "VAT", iso_num := some 336 }

/-- No row of a freshly built predicted batch survives the
not-predicted filter of the merger. -/
theorem mkBatch_filter_not_predicted (sel : String) (m : CountryMeta) (vals : List YearPop) :
    (mkBatch sel m vals).filter (fun d => !d.predicted) = [] := by
  induction vals with
  | nil => rfl
  | cons v vs ih =>
    simp only [mkBatch, List.map_cons, List.filter_cons] at ih ⊢
    simp [mkPredictedRow, ih]

/-- Claim C2: merging forecast batch B2 after batch B1 for the same
country leaves exactly the non-predicted rows of the original data plus
B2's predicted rows; no row of B1 survives, whatever the year overlap of
the two batches. -/
theorem c2_merge_replaces_previous_batch (data : List GapminderData) (sel : String)
    (m1 m2 : CountryMeta) (vals1 vals2 : List YearPop) :
    mergePredicted (mergePredicted data (mkBatch sel m1 vals1)) (mkBatch sel m2 vals2) =
      data.filter (fun d => !d.predicted) ++ mkBatch sel m2 vals2 := by
  unfold mergePredicted
  rw [List.filter_append, List.filter_filter, mkBatch_filter_not_predicted]
  simp

/-- Claim C9: after a merge, every predicted row anywhere in the data
set carries the country of the most recent forecast: the merger removes
the predicted rows of every country, not only the target's. -/
theorem c9_single_predicted_batch (data : List GapminderData) (sel : String)
    (m : CountryMeta) (vals : List YearPop) :
    ∀ r ∈ mergePredicted data (mkBatch sel m vals), r.predicted = true → r.country = sel := by
  intro r hr hp
  rcases List.mem_append.mp hr with h | h
  · have h2 := List.of_mem_filter h
    rw [hp] at h2
    exact Bool.noConfusion h2
  · rcases List.mem_map.mp h with ⟨v, _, rfl⟩
    rfl

/-- Witness for C9 at a concrete merged data set. -/
theorem c9_single_predicted_batch_witness : predCanada.country = "Canada" :=
  c9_single_predicted_batch [rowCanada] "Canada" metaCanada [YearPop.mk 2008 34000000]
    predCanada (by decide) (by decide)

/-- Claim C10: a record whose country, year and population cells are all
present is still dropped by the Row Normalizer when the population is 0,
the year is 0, or the country is the empty string, because presence is
tested by JavaScript truthiness. -/
theorem c10_truthiness_drops_zero (r : RawRecord)
    (_hpresent : r.country ≠ none ∧ r.year ≠ none ∧ r.pop ≠ none)
    (hzero : r.pop = some 0 ∨ r.year = some 0 ∨ r.country = some "") :
    isValidRecord r = false ∧ ∀ pre post : List RawRecord,
      normalizeRows (pre ++ r :: post) = normalizeRows (pre ++ post) := by
  have hval : isValidRecord r = false := by
    rcases hzero with h | h | h
    · simp [isValidRecord, truthyNum, h]
    · simp [isValidRecord, truthyNum, h]
    · simp [isValidRecord, truthyStr, h]
  refine ⟨hval, ?_⟩
  intro pre post
  unfold normalizeRows
  rw [List.filter_append, List.filter_append, List.filter_cons]
  simp [hval]

/-- Witness for C10: the all-present zero-population record is excluded. -/
theorem c10_truthiness_drops_zero_witness :
    isValidRecord recZeroPop = false ∧ normalizeRows [recZeroPop] = normalizeRows [] := by
  have h := c10_truthiness_drops_zero recZeroPop (by decide) (Or.inl (by decide))
  exact ⟨h.1, h.2 [] []⟩

/-- Claim C6: the Row Normalizer excludes every record missing country,
year or population; the remaining records pass through as a subsequence
in input order, and every present field value of a surviving record is
preserved in the typed row. -/
theorem c6_normalizer (rs : List RawRecord) :
    (∀ r ∈ rs, (r.country = none ∨ r.year = none ∨ r.pop = none) → isValidRecord r = false) ∧
    (∃ sub : List RawRecord, sub.Sublist rs ∧ (∀ r ∈ sub, isValidRecord r = true) ∧
      normalizeRows rs = sub.map toRow) ∧
    (∀ r : RawRecord, isValidRecord r = true →
      ∃ c y p, r.country = some c ∧ r.year = some y ∧ r.pop = some p ∧
        (toRow r).country = c ∧ (toRow r).year = y ∧ (toRow r).pop = p ∧
        (∀ s, r.continent = some s → (toRow r).continent = s) ∧
        (∀ n, r.lifeExp = some n → (toRow r).lifeExp = n) ∧
        (∀ n, r.gdpPercap = some n → (toRow r).gdpPercap = n) ∧
        (∀ s, r.iso_alpha = some s → (toRow r).iso_alpha = s) ∧
        (∀ n, r.iso_num = some n → (toRow r).iso_num = n)) := by
  refine ⟨?_, ?_, ?_⟩
  · intro r _ h
    rcases h with h | h | h
    · simp [isValidRecord, truthyStr, h]
    · simp [isValidRecord, truthyNum, h]
    · simp [isValidRecord, truthyNum, h]
  · refine ⟨rs.filter isValidRecord, List.filter_sublist rs, ?_, rfl⟩
    intro r hr
    exact List.of_mem_filter hr
  · intro r h
    simp only [isValidRecord, Bool.and_eq_true] at h
    obtain ⟨⟨hc, hy⟩, hp⟩ := h
    cases hcv : r.country with
    | none => rw [hcv] at hc; exact Bool.noConfusion hc
    | some c =>
      cases hyv : r.year with
      | none => rw [hyv] at hy; exact Bool.noConfusion hy
      | some y =>
        cases hpv : r.pop with
        | none => rw [hpv] at hp; exact Bool.noConfusion hp
        | some p =>
          refine ⟨c, y, p, rfl, rfl, rfl, ?_, ?_, ?_, ?_, ?_, ?_, ?_, ?_⟩
          · simp [toRow, hcv]
          · simp [toRow, hyv]
          · simp [toRow, hpv]
          · intro s hs
            simp [toRow, hs]
          · intro n hn
            simp [toRow, hn]
          · intro n hn
            simp [toRow, hn]
          · intro s hs
            simp [toRow, hs]
          · intro n hn
            simp [toRow, hn]

/-- Witness for C6: a record with an absent population is invalid, and
a fully present record keeps its field values. -/
theorem c6_normalizer_witness :
    isValidRecord recMissingPop = false ∧
    (∃ c y p, recGood.country = some c ∧ recGood.year = some y ∧ recGood.pop = some p ∧
      (toRow recGood).country = c ∧ (toRow recGood).year = y ∧ (toRow recGood).pop = p ∧
      (∀ s, recGood.continent = some s → (toRow recGood).continent = s) ∧
      (∀ n, recGood.lifeExp = some n → (toRow recGood).lifeExp = n) ∧
      (∀ n, recGood.gdpPercap = some n → (toRow recGood).gdpPercap = n) ∧
      (∀ s, recGood.iso_alpha = some s → (toRow recGood).iso_alpha = s) ∧
      (∀ n, recGood.iso_num = some n → (toRow recGood).iso_num = n)) :=
  ⟨(c6_normalizer [recMissingPop, recGood]).1 recMissingPop (by decide) (Or.inr (Or.inr rfl)),
   (c6_normalizer [recMissingPop, recGood]).2.2 recGood (by decide)⟩

/-- Claim C5: the boundary year is defined exactly when a non-predicted
row exists, in which case it is the maximum year among the non-predicted
rows; with no non-predicted row it is undefined and the chart never
renders the prediction boundary area. -/
theorem c5_boundary_year (fd : List GapminderData) :
    ((fd.filter (fun d => !d.predicted)) = [] ↔ lastHistoricalYear fd = none) ∧
    ((fd.filter (fun d => !d.predicted)) = [] → boundaryMarkShown fd = false) ∧
    (∀ y, lastHistoricalYear fd = some y →
      (∃ r ∈ fd.filter (fun d => !d.predicted), r.year = y) ∧
      (∀ r ∈ fd.filter (fun d => !d.predicted), r.year ≤ y)) := by
  refine ⟨?_, ?_, ?_⟩
  · cases hh : fd.filter (fun d => !d.predicted) with
    | nil => simp [lastHistoricalYear, hh]
    | cons r rest =>
      simp [lastHistoricalYear, hh]
  · intro hh
    have hnone : lastHistoricalYear fd = none := by
      simp [lastHistoricalYear, hh]
    simp [boundaryMarkShown, hnone]
  · intro y hy
    cases hh : fd.filter (fun d => !d.predicted) with
    | nil =>
      rw [lastHistoricalYear, hh] at hy
      exact Option.noConfusion hy
    | cons r rest =>
      rw [lastHistoricalYear, hh] at hy
      simp only [List.map_cons, Option.some.injEq] at hy
      constructor
      · rcases foldl_max_mem (rest.map (fun d => d.year)) r.year with hm | hm
        · exact ⟨r, List.mem_cons_self r rest, by rw [← hy, hm]⟩
        · rcases List.mem_map.mp hm with ⟨r2, hr2, hr2y⟩
          exact ⟨r2, List.mem_cons_of_mem r hr2, by rw [← hy, hr2y]⟩
      · intro r2 hr2
        rcases List.mem_cons.mp hr2 with rfl | hr3
        · rw [← hy]
          exact self_le_foldl_max _ _
        · rw [← hy]
          exact mem_le_foldl_max _ _ r2.year (List.mem_map.mpr ⟨r2, hr3, rfl⟩)

/-- Witness for C5: no boundary area without historical rows, and the
Canada boundary is an upper bound of the historical years. -/
theorem c5_boundary_year_witness :
    boundaryMarkShown [predCanada] = false ∧
    (∀ r ∈ [rowCanada, predCanada].filter (fun d => !d.predicted), r.year ≤ 2007) :=
  ⟨(c5_boundary_year [predCanada]).2.1 (by decide),
   ((c5_boundary_year [rowCanada, predCanada]).2.2 2007 (by decide)).2⟩

/-- A second country row used to exercise the Series Index. -/
def rowBrazil : GapminderData :=
  { country := "Brazil", continent := "Americas", year := 2007, lifeExp := 72
    pop := 190010647, gdpPercap := 9065, iso_alpha := "BRA", iso_num := 76
    predicted := false }

/-- Claim C7: the Series Index country list is the deduplicated set of
country values of the input, sorted lexicographically ascending, and the
per-country series is sorted ascending by year, contains exactly the
rows of that country, and preserves the original input order of rows
sharing a year. -/
theorem c7_series_index (rows : List GapminderData) :
    (uniqueCountries rows).Pairwise (fun a b : String => a ≤ b) ∧
    (uniqueCountries rows).Nodup ∧
    (∀ c, c ∈ uniqueCountries rows ↔ ∃ r ∈ rows, r.country = c) ∧
    (∀ c, (filteredData rows c).Pairwise (fun a b => a.year ≤ b.year) ∧
      (filteredData rows c).Perm (rows.filter (fun r => r.country == c)) ∧
      (∀ y, (filteredData rows c).filter (fun d => d.year == y) =
        (rows.filter (fun r => r.country == c)).filter (fun d => d.year == y))) := by
  refine ⟨?_, ?_, ?_, ?_⟩
  · exact (sortOrd_pairwise strLt strLt_asymm strLt_neg_trans _).imp
      (fun h => not_lt.mp ((strLt_eq_false_iff _ _).mp h))
  · exact ((sortOrd_perm strLt (countryFold rows)).symm).nodup
      (nodup_foldl_insertCountry rows [] List.nodup_nil)
  · intro c
    rw [uniqueCountries, (sortOrd_perm strLt (countryFold rows)).mem_iff,
      countryFold, mem_foldl_insertCountry]
    simp
  · intro c
    refine ⟨?_, sortOrd_perm yearLt _, fun y => sortOrd_year_filter _ y⟩
    exact (sortOrd_pairwise yearLt yearLt_asymm yearLt_neg_trans _).imp
      (fun {a b} h => by
        have h2 : ¬ b.year < a.year := by simpa [yearLt] using h
        omega)

/-- Witness for C7 at a concrete two-country data set. -/
theorem c7_series_index_witness :
    ("Canada" ∈ uniqueCountries [rowCanada, rowBrazil, predCanada] ↔
      ∃ r ∈ [rowCanada, rowBrazil, predCanada], r.country = "Canada") ∧
    (filteredData [rowCanada, rowBrazil, predCanada] "Canada").Pairwise
      (fun a b => a.year ≤ b.year) :=
  ⟨(c7_series_index [rowCanada, rowBrazil, predCanada]).2.2.1 "Canada",
   ((c7_series_index [rowCanada, rowBrazil, predCanada]).2.2.2 "Canada").1⟩

/-- A country "A" row stored after a later year, out of chronological
order. -/
def rowA1 : GapminderData :=
  { country := "A", continent := "", year := 2000, lifeExp := 0
    pop := 5, gdpPercap := 0, iso_alpha := "", iso_num := 0, predicted := false }

/-- The chronologically earlier country "A" row, stored second. -/
def rowA2 : GapminderData :=
  { country := "A", continent := "", year := 1990, lifeExp := 0
    pop := 3, gdpPercap := 0, iso_alpha := "", iso_num := 0, predicted := false }

/-- Counterexample to C4 as stated: when a country's rows are stored out
of chronological order, the request hands the oracle the last rows in
data-set order, not the last rows of the chronologically-ordered series;
here the context pairs come out year-descending. -/
theorem c4_counterexample :
    requestForecastInput [rowA1, rowA2] "A" =
      some { country := "A"
             recentContext := [YearPop.mk 2000 5, YearPop.mk 1990 3]
             rangeStart := 2001
             rangeEnd := 2025 } ∧
    specChronologicalContext [rowA1, rowA2] "A" = [YearPop.mk 1990 3, YearPop.mk 2000 5] ∧
    ¬ ([YearPop.mk 2000 5, YearPop.mk 1990 3].Pairwise (fun a b => a.year ≤ b.year)) := by
  refine ⟨by decide, by decide, ?_⟩
  intro h
  have h2 := List.rel_of_pairwise_cons h (List.mem_cons_self _ _)
  exact absurd h2 (by decide)

/-- Claim C4 (amended): for a country with no historical rows no request
is built (the NoDataForSelection error branch); otherwise the request
targets the horizon 2025 starting right after the maximum historical
year, and its context is the last min(10, n) rows of the country's rows
in data-set order, reduced to (year, pop) pairs — chronologically
ordered only when the stored rows already are. -/
theorem c4_request_shape (od : List GapminderData) (sel : String) :
    (countryRows od sel = [] → requestForecastInput od sel = none) ∧
    (countryRows od sel ≠ [] → ∃ req, requestForecastInput od sel = some req ∧
      req.country = sel ∧
      req.rangeEnd = 2025 ∧
      (∃ r ∈ countryRows od sel, req.rangeStart = r.year + 1) ∧
      (∀ r ∈ countryRows od sel, r.year + 1 ≤ req.rangeStart) ∧
      countryRows od sel =
        (countryRows od sel).take ((countryRows od sel).length - 10) ++
          takeLast 10 (countryRows od sel) ∧
      (takeLast 10 (countryRows od sel)).length = min 10 (countryRows od sel).length ∧
      req.recentContext = (takeLast 10 (countryRows od sel)).map
        (fun d => YearPop.mk d.year d.pop) ∧
      ((countryRows od sel).Pairwise (fun a b => a.year ≤ b.year) →
        req.recentContext.Pairwise (fun a b => a.year ≤ b.year))) := by
  constructor
  · intro h
    unfold requestForecastInput
    rw [h]
  · intro h
    obtain ⟨r, rest, hcd⟩ := List.exists_cons_of_ne_nil h
    refine ⟨{ country := sel
              recentContext := (takeLast 10 (r :: rest)).map (fun d => YearPop.mk d.year d.pop)
              rangeStart := ((rest.map (fun d => d.year)).foldl max r.year) + 1
              rangeEnd := horizonYear }, ?_, rfl, rfl, ?_, ?_, ?_, ?_, ?_, ?_⟩
    · unfold requestForecastInput
      rw [hcd]
    · rcases foldl_max_mem (rest.map (fun d => d.year)) r.year with hm | hm
      · exact ⟨r, by rw [hcd]; exact List.mem_cons_self r rest, by rw [hm]⟩
      · rcases List.mem_map.mp hm with ⟨r2, hr2, hr2y⟩
        exact ⟨r2, by rw [hcd]; exact List.mem_cons_of_mem r hr2, by rw [← hr2y]⟩
    · intro r2 hr2
      rw [hcd] at hr2
      rcases List.mem_cons.mp hr2 with rfl | hr3
      · exact add_le_add_right (self_le_foldl_max (rest.map (fun d => d.year)) r2.year) 1
      · exact add_le_add_right (mem_le_foldl_max (rest.map (fun d => d.year)) r.year r2.year
          (List.mem_map.mpr ⟨r2, hr3, rfl⟩)) 1
    · rw [takeLast]
      exact (List.take_append_drop _ _).symm
    · rw [takeLast, List.length_drop]
      omega
    · rw [hcd]
    · intro hs
      rw [hcd] at hs
      refine List.pairwise_map.mpr ?_
      exact List.Pairwise.sublist (List.drop_sublist _ _) hs

/-- Witness for C4 at the single-row Canada data set. -/
theorem c4_request_shape_witness :
    countryRows [rowCanada] "Canada" ≠ [] ∧
    (∃ req, requestForecastInput [rowCanada] "Canada" = some req ∧
      req.country = "Canada" ∧
      req.rangeEnd = 2025 ∧
      (∃ r ∈ countryRows [rowCanada] "Canada", req.rangeStart = r.year + 1) ∧
      (∀ r ∈ countryRows [rowCanada] "Canada", r.year + 1 ≤ req.rangeStart) ∧
      countryRows [rowCanada] "Canada" =
        (countryRows [rowCanada] "Canada").take
            ((countryRows [rowCanada] "Canada").length - 10) ++
          takeLast 10 (countryRows [rowCanada] "Canada") ∧
      (takeLast 10 (countryRows [rowCanada] "Canada")).length =
        min 10 (countryRows [rowCanada] "Canada").length ∧
      req.recentContext = (takeLast 10 (countryRows [rowCanada] "Canada")).map
        (fun d => YearPop.mk d.year d.pop) ∧
      ((countryRows [rowCanada] "Canada").Pairwise (fun a b => a.year ≤ b.year) →
        req.recentContext.Pairwise (fun a b => a.year ≤ b.year))) :=
  ⟨by decide, (c4_request_shape [rowCanada] "Canada").2 (by decide)⟩

/-- Claim C8: turning the toggle off while no request is in flight
reverts the data to the original data set, so the working series is
exactly the historical subseries of the current selection, every row
non-predicted, and no oracle call is issued. -/
theorem c8_toggle_off_reverts (s : AppState) (rs : List RawRecord)
    (hpred : s.predicting = false) (horig : s.originalData = normalizeRows rs) :
    ∃ s2, step s (Event.toggle false) = some s2 ∧
      s2.showPrediction = false ∧
      s2.predicting = false ∧
      s2.pending = s.pending ∧
      s2.data = s.originalData ∧
      workingSeries s2 = filteredData s.originalData s.selectedCountry ∧
      ∀ r ∈ workingSeries s2, r.predicted = false := by
  refine ⟨{ s with showPrediction := false, data := s.originalData },
    ?_, rfl, hpred, rfl, rfl, rfl, ?_⟩
  · simp [step, hpred]
  · intro r hr
    have hr2 : r ∈ s.originalData.filter (fun r => r.country == s.selectedCountry) :=
      (sortOrd_perm yearLt _).mem_iff.mp hr
    have hr3 : r ∈ s.originalData := List.mem_of_mem_filter hr2
    rw [horig] at hr3
    rcases List.mem_map.mp hr3 with ⟨rec, _, rfl⟩
    rfl

/-- A state in which a Canada forecast has been merged and no request is
in flight, used to exercise the toggle-off transition. -/
def sPredicted : AppState :=
  { originalData := normalizeRows [recGood]
    data := mergePredicted (normalizeRows [recGood])
      (mkBatch "Canada" metaCanada [YearPop.mk 2008 34000000])
    selectedCountry := "Canada"
    showPrediction := true
    predicting := false
    error := none
    pending := none }

/-- Witness for C8 at the merged Canada state. -/
theorem c8_toggle_off_reverts_witness :
    ∃ s2, step sPredicted (Event.toggle false) = some s2 ∧
      s2.showPrediction = false ∧
      s2.predicting = false ∧
      s2.pending = sPredicted.pending ∧
      s2.data = sPredicted.originalData ∧
      workingSeries s2 = filteredData sPredicted.originalData sPredicted.selectedCountry ∧
      ∀ r ∈ workingSeries s2, r.predicted = false :=
  c8_toggle_off_reverts sPredicted [recGood] rfl rfl

/-- A data set without any row for the hard-coded initial selection
"Canada". -/
def rowVietnam : GapminderData :=
  { country := "Vietnam", continent := "Asia", year := 2000, lifeExp := 72
    pop := 80000000, gdpPercap := 1800, iso_alpha := "VNM", iso_num := 704
    predicted := false }

/-- The freshly loaded state whose selection has no rows. -/
def sNoCanada : AppState := initState [rowVietnam]

/-- Counterexample to C1 as stated: enabling the toggle on a selection
with no historical rows raises the forecast-time NoDataForSelection
error, yet predictionEnabled is left true — the empty-series branch of
handlePredictionToggle never unchecks the box. -/
theorem c1_counterexample :
    step sNoCanada (Event.toggle true) = some (startPrediction sNoCanada) ∧
    (startPrediction sNoCanada).error.isSome = true ∧
    (startPrediction sNoCanada).showPrediction = true ∧
    (startPrediction sNoCanada).pending = none := by
  decide

/-- Claim C1 (amended): on oracle failure or an invalid-shape response
the controller forces predictionEnabled back to false, surfaces the
error, issues no further call, and leaves the working data untouched
rather than explicitly reverting it; on an empty historical series the
error is surfaced and no request is issued, but predictionEnabled stays
true and the data is likewise unchanged. -/
theorem c1_error_paths (s : AppState) (pc : String) :
    ((completeRequest s pc OracleResult.failure).showPrediction = false ∧
     (completeRequest s pc OracleResult.failure).predicting = false ∧
     (completeRequest s pc OracleResult.failure).pending = none ∧
     (completeRequest s pc OracleResult.failure).error.isSome = true ∧
     (completeRequest s pc OracleResult.failure).data = s.data) ∧
    (countryRows s.originalData s.selectedCountry = [] →
      (startPrediction s).showPrediction = true ∧
      (startPrediction s).error.isSome = true ∧
      (startPrediction s).pending = none ∧
      (startPrediction s).predicting = false ∧
      (startPrediction s).data = s.data) := by
  constructor
  · exact ⟨rfl, rfl, rfl, rfl, rfl⟩
  · intro h
    unfold startPrediction
    rw [h]
    exact ⟨rfl, rfl, rfl, rfl, rfl⟩

/-- Witness for C1 at the no-Canada state. -/
theorem c1_error_paths_witness :
    (completeRequest sNoCanada "Canada" OracleResult.failure).showPrediction = false ∧
    (startPrediction sNoCanada).showPrediction = true ∧
    (startPrediction sNoCanada).predicting = false :=
  ⟨(c1_error_paths sNoCanada "Canada").1.1,
   ((c1_error_paths sNoCanada "Canada").2 (by decide)).1,
   ((c1_error_paths sNoCanada "Canada").2 (by decide)).2.2.2.1⟩

/-- A country "B" historical row. -/
def rowB : GapminderData :=
  { country := "B", continent := "", year := 2000, lifeExp := 0
    pop := 7, gdpPercap := 0, iso_alpha := "", iso_num := 0, predicted := false }

/-- A previously merged predicted row for country "B". -/
def predB : GapminderData :=
  mkPredictedRow "B" { continent := "", iso_alpha := "", iso_num := 0 } (YearPop.mk 2001 8)

/-- The predicted row the completion for country "A" produces. -/
def predA : GapminderData :=
  mkPredictedRow "A" { continent := "", iso_alpha := "", iso_num := 0 } (YearPop.mk 2001 6)

/-- A state whose in-flight call was captured for country "A" while the
selection reads "B".  The real program reaches such states: the effect
of src/App.tsx lines 138-144 fires the handler a second time on
toggle-on without checking predicting, the first completion's finally
(line 134) clears predicting and re-enables the selector while the
second call is still pending, and the user then moves the selection. -/
def sStale : AppState :=
  { originalData := [rowA1, rowB]
    data := [rowA1, rowB, predB]
    selectedCountry := "B"
    showPrediction := true
    predicting := true
    error := none
    pending := some "A" }

/-- Counterexample to C3 as stated: the completion handler performs no
token comparison — completing a call captured for "A" while the
selection is "B" still merges A's predicted rows into the data and
deletes B's predicted row, changing B's working series. -/
theorem c3_counterexample :
    (completeRequest sStale "A" (OracleResult.success [YearPop.mk 2001 6])).data =
      [rowA1, rowB, predA] ∧
    sStale.selectedCountry = "B" ∧
    predB ∈ workingSeries sStale ∧
    predB ∉ workingSeries (completeRequest sStale "A"
      (OracleResult.success [YearPop.mk 2001 6])) ∧
    predA.country = "A" ∧
    predA.predicted = true := by
  decide

/-- Claim C3 (amended): there is no request token and no completion-time
staleness check — the completion handler's effect on the data is the
same whatever the current selection reads — and the effect of
src/App.tsx lines 138-144 re-invokes the handler without checking
predicting, so a stale call for country A can still be in flight after
the selection has moved to B.  What survives of the claimed guarantee
is weaker: a completed batch for A never inserts rows into another
country's working series, because every merged row carries country A;
after such a stale merge the other country's working series holds no
predicted rows at all (the merge deletes that country's own previously
merged predicted rows, as the counterexample shows). -/
theorem c3_stale_completion_unconditional (s : AppState) (pc c2 : String)
    (res : OracleResult) (vals : List YearPop) (c : String) (hne : c ≠ pc) :
    (completeRequest { s with selectedCountry := c2 } pc res).data =
      (completeRequest s pc res).data ∧
    ∀ r ∈ filteredData (completeRequest s pc (OracleResult.success vals)).data c,
      r.predicted = false := by
  constructor
  · cases res with
    | failure => rfl
    | success vals2 => rfl
  · intro r hr
    have hr2 : r ∈ (completeRequest s pc (OracleResult.success vals)).data.filter
        (fun r => r.country == c) := (sortOrd_perm yearLt _).mem_iff.mp hr
    have hd : r ∈ s.data.filter (fun d => !d.predicted) ++
        mkBatch pc (metaOf (countryRows s.originalData pc)) vals :=
      List.mem_of_mem_filter hr2
    have hcty : r.country = c := by
      have h3 := List.of_mem_filter hr2
      simpa using h3
    rcases List.mem_append.mp hd with h | h
    · have h2 := List.of_mem_filter h
      simpa using h2
    · rcases List.mem_map.mp h with ⟨v, _, rfl⟩
      exact absurd hcty.symm hne

/-- Witness for C3 at the stale state: the completion's data effect is
independent of the selection, and B's working series ends with no
predicted rows after the stale merge for "A". -/
theorem c3_stale_completion_unconditional_witness :
    (completeRequest { sStale with selectedCountry := "Canada" } "A"
        (OracleResult.success [YearPop.mk 2001 6])).data =
      (completeRequest sStale "A" (OracleResult.success [YearPop.mk 2001 6])).data ∧
    ∀ r ∈ filteredData (completeRequest sStale "A"
        (OracleResult.success [YearPop.mk 2001 6])).data "B",
      r.predicted = false :=
  c3_stale_completion_unconditional sStale "A" "Canada"
    (OracleResult.success [YearPop.mk 2001 6]) [YearPop.mk 2001 6] "B" (by decide)
